import Mathlib

/-!
Verification development for the full-text search subsystem of a marketplace
CRUD application (backend/app/services/search.py, backend/app/routers/search.py,
backend/app/services/search_logging.py).

The Python code is shallowly embedded: pure string manipulation becomes Lean
string functions; the database tables touched by the SQL statements become
explicit lists of rows, and the SQL statements become list operations (COUNT a
filter, ORDER BY a merge sort, LIMIT/OFFSET a drop/take).  The two full-text
engines themselves (SQLite FTS5 and PostgreSQL tsvector matching) are external
to the repository, so their match predicates and rank functions are parameters
of the embedding; for round-trip properties a concrete model of the FTS5
tokenizer and MATCH semantics is supplied.
-/

/-! ## Python string primitives -/

/-- The ASCII whitespace characters recognised by Python `str.strip()` /
`str.split()` (space, tab, newline, carriage return, vertical tab, form feed). -/
def pyIsSpace (c : Char) : Bool :=
  c = ' ' || c = '\t' || c = '\n' || c = '\r' || c = '\x0b' || c = '\x0c'

/-- Python `str.strip()`: remove leading and trailing whitespace. -/
def pyStrip (s : String) : String :=
  String.mk (((s.data.dropWhile pyIsSpace).reverse.dropWhile pyIsSpace).reverse)

/-- Split a character list into the maximal runs of characters on which `sep`
is false, dropping separator characters; `acc` holds the current run reversed.
With `sep = pyIsSpace` this is Python `str.split()` (no argument form). -/
def splitRuns (sep : Char → Bool) : List Char → List Char → List String
  | [], acc => if acc = [] then [] else [String.mk acc.reverse]
  | c :: cs, acc =>
    if sep c then
      if acc = [] then splitRuns sep cs []
      else String.mk acc.reverse :: splitRuns sep cs []
    else splitRuns sep cs (c :: acc)

/-- Python `str.split()` with no separator argument: split on runs of
whitespace, producing no empty words. -/
def pySplit (s : String) : List String := splitRuns pyIsSpace s.data []

/-- Python `sep.join(words)`. -/
def pyJoin (sep : String) : List String → String
  | [] => ""
  | [w] => w
  | w :: ws => w ++ sep ++ pyJoin sep ws

/-- Python `word.replace(chr(34), chr(34)*2)`: double every double-quote
character. -/
def escapeQuotes : List Char → List Char
  | [] => []
  | c :: cs => if c = '"' then '"' :: '"' :: escapeQuotes cs else c :: escapeQuotes cs

/-! ## The search service (backend/app/services/search.py) -/

namespace SearchService

/-- `SearchService._prepare_query_sqlite`: strip the query (returning `None`
when nothing remains), split it on whitespace, re-strip and drop empty words,
double every embedded double quote, wrap each word in double quotes and join
the quoted words with single spaces. -/
def prepare_query_sqlite (query : String) : Option String :=
  let query := pyStrip query
  if query = "" then none
  else
    let words := ((pySplit query).map pyStrip).filter (fun w => w ≠ "")
    if words = [] then none
    else
      let escaped_words :=
        words.map (fun word => String.mk ('"' :: (escapeQuotes word.data ++ ['"'])))
      some (pyJoin " " escaped_words)

/-- `SearchService._prepare_query_postgres`: strip the query (returning `None`
when nothing remains), split it on whitespace, re-strip and drop empty words,
remove every non-alphanumeric character from each word, drop words that become
empty, and join the survivors with the tsquery AND operator; `None` when no
word survives. -/
def prepare_query_postgres (query : String) : Option String :=
  let query := pyStrip query
  if query = "" then none
  else
    let words := ((pySplit query).map pyStrip).filter (fun w => w ≠ "")
    if words = [] then none
    else
      let escaped_words :=
        (words.map (fun word => String.mk (word.data.filter Char.isAlphanum))).filter
          (fun w => w ≠ "")
      if escaped_words = [] then none
      else some (pyJoin " & " escaped_words)

end SearchService

/-! ## Data model

The SQL statements of the service run against two tables: `items_fts` (the
SQLite FTS5 shadow table, keyed by rowid) and `items` (the source-of-truth
entity table, which for the PostgreSQL variant also carries the
`search_vector` column).  Both are embedded as lists of rows. -/

/-- A row of the SQLite FTS5 table `items_fts` (rowid plus the indexed text
columns, mirroring the `INSERT INTO items_fts(rowid, title, description,
content)` statements). -/
structure FtsRow where
  rowid : Int
  title : String
  description : String
  content : String
deriving Repr, DecidableEq

/-- A row of the `items` table with the columns the search subsystem touches
(`id`, the three indexed text columns — all non-nullable per the model —, the
legacy `type` string, the nullable `category_id`, the ids of the tags attached
through the `item_tags` association table, and for the PostgreSQL variant the
`search_vector` column). -/
structure ItemRow where
  id : Int
  title : String
  description : String
  content : String
  type : String
  category_id : Option Int
  tag_ids : List Int
  search_vector : String
deriving Repr, DecidableEq

/-- Which database backend is active (`settings.DATABASE_URL` starting with
`postgresql` selects PostgreSQL, anything else SQLite). -/
inductive Backend where
  | sqlite
  | postgres
deriving Repr, DecidableEq

/-- The database as the search subsystem sees it: the active backend, the two
tables, and the externally supplied engine semantics — the FTS5 `MATCH`
predicate and `bm25` rank for SQLite, and the `@@ to_tsquery` predicate,
`ts_rank` and `to_tsvector` for PostgreSQL.  Rank values are integers; only
their ordering is ever used. -/
structure Db where
  backend : Backend
  items_fts : List FtsRow
  items : List ItemRow
  ftsMatch : String → FtsRow → Bool
  bm25 : String → FtsRow → Int
  tsMatch : String → ItemRow → Bool
  tsRank : String → ItemRow → Int
  to_tsvector : String → String

namespace SearchService

/-- The row sequence produced by the SQLite ranked fetch with no LIMIT/OFFSET:
the rows of `items_fts` satisfying `MATCH :query`, ordered by `bm25(items_fts)`
ascending (lower cost = more relevant). -/
def ranked_rows_sqlite (db : Db) (cleaned_query : String) : List FtsRow :=
  (db.items_fts.filter (db.ftsMatch cleaned_query)).mergeSort
    (fun a b => decide (db.bm25 cleaned_query a ≤ db.bm25 cleaned_query b))

/-- The id sequence of the unpaginated SQLite ranked fetch. -/
def ranked_ids_sqlite (db : Db) (cleaned_query : String) : List Int :=
  (ranked_rows_sqlite db cleaned_query).map FtsRow.rowid

/-- The row sequence produced by the PostgreSQL ranked fetch with no
LIMIT/OFFSET: the rows of `items` satisfying `search_vector @@ to_tsquery`,
ordered by `ts_rank` descending (higher = more relevant). -/
def ranked_rows_postgres (db : Db) (cleaned_query : String) : List ItemRow :=
  (db.items.filter (db.tsMatch cleaned_query)).mergeSort
    (fun a b => decide (db.tsRank cleaned_query b ≤ db.tsRank cleaned_query a))

/-- The id sequence of the unpaginated PostgreSQL ranked fetch. -/
def ranked_ids_postgres (db : Db) (cleaned_query : String) : List Int :=
  (ranked_rows_postgres db cleaned_query).map ItemRow.id

/-- `SearchService._search_sqlite`.  Returns `((item_ids, total_count), n)`
where `n` counts the SQL statements issued: `0` — the prepared query was
`None`, no statement ran; `1` — only the COUNT statement ran (zero matches);
`2` — COUNT followed by the ranked fetch with `LIMIT :limit OFFSET :offset`. -/
def search_sqlite (db : Db) (query : String) (limit offset : Nat) :
    (List Int × Nat) × Nat :=
  match prepare_query_sqlite query with
  | none => (([], 0), 0)
  | some cleaned_query =>
    let total_count := (db.items_fts.filter (db.ftsMatch cleaned_query)).length
    if total_count = 0 then (([], 0), 1)
    else ((((ranked_ids_sqlite db cleaned_query).drop offset).take limit,
           total_count), 2)

/-- `SearchService._search_postgres`, with the same statement counting as
`search_sqlite`. -/
def search_postgres (db : Db) (query : String) (limit offset : Nat) :
    (List Int × Nat) × Nat :=
  match prepare_query_postgres query with
  | none => (([], 0), 0)
  | some cleaned_query =>
    let total_count := (db.items.filter (db.tsMatch cleaned_query)).length
    if total_count = 0 then (([], 0), 1)
    else ((((ranked_ids_postgres db cleaned_query).drop offset).take limit,
           total_count), 2)

/-- `SearchService.search`: return `([], 0)` for an empty or whitespace-only
query (before touching the database), otherwise dispatch on the backend.  In
the Python signature `limit` defaults to `20` and `offset` to `0`; call sites
that pass neither use those values. -/
def search (db : Db) (query : String) (limit offset : Nat) :
    (List Int × Nat) × Nat :=
  if query = "" || pyStrip query = "" then (([], 0), 0)
  else
    match db.backend with
    | .postgres => search_postgres db query limit offset
    | .sqlite => search_sqlite db query limit offset

/-- `SearchService.rebuild_index`: PostgreSQL — recompute every row's
`search_vector` from its current text columns; SQLite — `DELETE FROM items_fts`
then repopulate it from the `items` table in one INSERT..SELECT. -/
def rebuild_index (db : Db) : Db :=
  match db.backend with
  | .postgres =>
    { db with
      items := db.items.map (fun it =>
        { it with
          search_vector :=
            db.to_tsvector (it.title ++ " " ++ it.description ++ " " ++ it.content) }) }
  | .sqlite =>
    { db with
      items_fts := db.items.map (fun it =>
        { rowid := it.id, title := it.title, description := it.description,
          content := it.content }) }

/-- `SearchService.index_item`: PostgreSQL — no-op (a trigger maintains
`search_vector`); SQLite — delete any `items_fts` row with this rowid, then
insert the new text. -/
def index_item (db : Db) (item_id : Int) (title description content : String) : Db :=
  match db.backend with
  | .postgres => db
  | .sqlite =>
    { db with
      items_fts :=
        (db.items_fts.filter (fun r => r.rowid != item_id)) ++
          [{ rowid := item_id, title := title, description := description,
             content := content }] }

/-- `SearchService.remove_from_index`: PostgreSQL — no-op; SQLite — delete the
`items_fts` row with this rowid. -/
def remove_from_index (db : Db) (item_id : Int) : Db :=
  match db.backend with
  | .postgres => db
  | .sqlite =>
    { db with items_fts := db.items_fts.filter (fun r => r.rowid != item_id) }

end SearchService

/-! ## A concrete model of the external SQLite FTS5 engine

The FTS5 engine is not part of the repository.  For round-trip properties we
model its behaviour on exactly the query strings `_prepare_query_sqlite`
produces (space-separated double-quoted terms): the default unicode61
tokenizer splits text into maximal alphanumeric runs and folds case, and a
conjunction of quoted terms matches a row iff every term occurs among the
row's tokens. -/

/-- Character-wise ASCII case folding (the tokenizer's case folding). -/
def lowerString (s : String) : String :=
  String.mk (s.data.map Char.toLower)

/-- FTS5 unicode61 tokenization restricted to ASCII: maximal alphanumeric
runs. -/
def ftsWords (s : String) : List String :=
  splitRuns (fun c => !c.isAlphanum) s.data []

/-- The case-folded tokens of an `items_fts` row (title, description and
content are all indexed). -/
def ftsRowTokens (r : FtsRow) : List String :=
  (ftsWords r.title ++ ftsWords r.description ++ ftsWords r.content).map lowerString

/-- FTS5 `MATCH` for the query strings produced by `_prepare_query_sqlite`:
split the query on whitespace into quoted terms, strip the quotes, and require
every term to occur among the row's tokens. -/
def fts5Match (cleaned_query : String) (r : FtsRow) : Bool :=
  ((pySplit cleaned_query).map
      (fun w => String.mk (w.data.filter (fun c => c != '"')))).all
    (fun t => (ftsRowTokens r).contains (lowerString t))

/-! ## The search route handler (backend/app/routers/search.py)

Only the relevance-sorted branch (`has_query and sort == "relevance"`) is
embedded — it is the branch the claims are about.  The handler has already
parsed the comma-separated filter parameters into lists; the tag-name
resolution (the ILIKE lookup in the `tags` table) is represented by its
outcome `tagFilter`: `none` when no tag filter was requested, `some ids` for
the resolved tag id list (`some []` meaning tags were requested but none
matched, which makes the handler return an empty response early). -/

/-- The conjunction of secondary filters applied by the relevance branch on
top of the ranked id set: id in the ranked set, type in the type filter (when
requested), category in the category filter (when requested, NULL categories
matching nothing as in SQL IN), and some attached tag among the resolved tag
ids (when requested). -/
def router_pass (item_ids : List Int) (type_filters : List String)
    (category_filters : List Int) (tagFilter : Option (List Int))
    (it : ItemRow) : Bool :=
  (item_ids.contains it.id)
  && (type_filters = [] || type_filters.contains it.type)
  && (category_filters = [] ||
      (match it.category_id with
       | some c => category_filters.contains c
       | none => false))
  && (match tagFilter with
      | some tag_ids => it.tag_ids.any (fun t => tag_ids.contains t)
      | none => true)

/-- The CASE-expression ordering key: an id's position in the ranked list. -/
def rankPos (item_ids : List Int) (i : Int) : Nat := item_ids.indexOf i

/-- The relevance-sorted branch of the `/api/search` handler.  It calls
`SearchService.search(db, q)` passing neither `limit` nor `offset` (so the
defaults 20 and 0 apply), returns empty immediately when no ids come back or
when a requested tag filter resolved to no tags, otherwise filters the `items`
table to the returned ids plus the type/category/tag filters, counts the
result as `total`, orders it by each id's position in `item_ids` (the CASE
expression), applies the page window `offset = (page-1)*limit`, and returns
the page's ids together with `total`. -/
def router_search_relevance (db : Db) (q : String) (type_filters : List String)
    (category_filters : List Int) (tagFilter : Option (List Int))
    (page limit : Nat) : List Int × Nat :=
  let offset := (page - 1) * limit
  let item_ids := (SearchService.search db q 20 0).1.1
  if item_ids = [] then ([], 0)
  else if tagFilter = some [] then ([], 0)
  else
    let filtered := db.items.filter
      (router_pass item_ids type_filters category_filters tagFilter)
    let total := filtered.length
    let ordered := filtered.mergeSort (fun a b =>
      decide (rankPos item_ids a.id ≤ rankPos item_ids b.id))
    let pageItems := (ordered.drop offset).take limit
    (pageItems.map (fun it => it.id), total)

/-! ## Search logging (backend/app/services/search_logging.py) -/

/-- A row of the `search_logs` table (the generated id and timestamp are
omitted). -/
structure SearchLog where
  query : String
  result_count : Nat
  source : String
deriving Repr, DecidableEq

/-- Whether the database commit attempted by the log writer succeeds or raises
(connectivity failure, constraint violation, ...). -/
inductive DbOutcome where
  | ok
  | raise (msg : String)
deriving Repr, DecidableEq

namespace SearchLoggingService

/-- `SearchLoggingService._log_search_sync` (the body of the background
thread): open an independent session, add the log row and commit; on any
exception roll the session back and swallow the exception.  Returns the
resulting `search_logs` table together with what propagates to the caller
(always `Except.ok`). -/
def log_search_sync (logs : List SearchLog) (query : String) (result_count : Nat)
    (source : String) (outcome : DbOutcome) : List SearchLog × Except String Unit :=
  match outcome with
  | .ok => (logs ++ [{ query := query, result_count := result_count, source := source }],
            Except.ok ())
  | .raise _ => (logs, Except.ok ())

end SearchLoggingService

/-- The tail of the relevance branch of the route handler: compute the search
response, then fire the telemetry write (`log_search` dispatches
`_log_search_sync` on a background thread with its own session); the response
is built independently of the telemetry outcome. -/
def search_with_logging (db : Db) (logs : List SearchLog) (q : String)
    (type_filters : List String) (category_filters : List Int)
    (tagFilter : Option (List Int)) (page limit : Nat) (outcome : DbOutcome) :
    (List Int × Nat) × (List SearchLog × Except String Unit) :=
  let resp := router_search_relevance db q type_filters category_filters tagFilter page limit
  (resp, SearchLoggingService.log_search_sync logs q resp.2 "web" outcome)

/-! ## Basic lemmas about the string primitives -/

theorem dropWhile_eq_self_of_sep_false {p : Char → Bool} :
    ∀ {l : List Char}, (∀ c ∈ l, p c = false) → l.dropWhile p = l
  | [], _ => rfl
  | c :: cs, h => by
    have hc : p c = false := h c (List.mem_cons_self c cs)
    simp [List.dropWhile_cons, hc]

theorem pyStrip_eq_empty (s : String) (h : ∀ c ∈ s.data, pyIsSpace c = true) :
    pyStrip s = "" := by
  unfold pyStrip
  have h1 : s.data.dropWhile pyIsSpace = [] :=
    List.dropWhile_eq_nil_iff.mpr h
  rw [h1]
  rfl

theorem pyStrip_eq_self (s : String) (h : ∀ c ∈ s.data, pyIsSpace c = false) :
    pyStrip s = s := by
  unfold pyStrip
  have h1 : s.data.dropWhile pyIsSpace = s.data :=
    dropWhile_eq_self_of_sep_false h
  rw [h1]
  have h2 : s.data.reverse.dropWhile pyIsSpace = s.data.reverse :=
    dropWhile_eq_self_of_sep_false (fun c hc => h c (List.mem_reverse.mp hc))
  rw [h2, List.reverse_reverse]

theorem mem_pyStrip_data {s : String} {c : Char} (h : c ∈ (pyStrip s).data) :
    c ∈ s.data := by
  unfold pyStrip at h
  simp only [String.mk] at h
  have h1 := List.mem_reverse.mp h
  have h2 := (List.dropWhile_sublist pyIsSpace).mem h1
  have h3 := List.mem_reverse.mp h2
  exact (List.dropWhile_sublist pyIsSpace).mem h3

theorem mem_splitRuns (sep : Char → Bool) :
    ∀ (cs acc : List Char) (w : String), w ∈ splitRuns sep cs acc →
      ∀ c ∈ w.data, c ∈ cs ∨ c ∈ acc
  | [], acc, w, hw => by
    unfold splitRuns at hw
    by_cases hacc : acc = []
    · simp [hacc] at hw
    · simp [hacc] at hw
      intro c hc
      rw [hw] at hc
      exact Or.inr (List.mem_reverse.mp hc)
  | c :: cs, acc, w, hw => by
    unfold splitRuns at hw
    by_cases hsep : sep c
    · simp [hsep] at hw
      by_cases hacc : acc = []
      · simp [hacc] at hw
        intro d hd
        rcases mem_splitRuns sep cs [] w hw d hd with h | h
        · exact Or.inl (List.mem_cons_of_mem c h)
        · exact absurd h (List.not_mem_nil d)
      · simp [hacc] at hw
        rcases hw with hw | hw
        · intro d hd
          rw [hw] at hd
          exact Or.inr (List.mem_reverse.mp hd)
        · intro d hd
          rcases mem_splitRuns sep cs [] w hw d hd with h | h
          · exact Or.inl (List.mem_cons_of_mem c h)
          · exact absurd h (List.not_mem_nil d)
    · simp [hsep] at hw
      intro d hd
      rcases mem_splitRuns sep cs (c :: acc) w hw d hd with h | h
      · exact Or.inl (List.mem_cons_of_mem c h)
      · rcases List.mem_cons.mp h with h | h
        · exact Or.inl (h ▸ List.mem_cons_self c cs)
        · exact Or.inr h

theorem splitRuns_words_ok (sep : Char → Bool) :
    ∀ (cs acc : List Char), (∀ c ∈ acc, sep c = false) →
      ∀ w ∈ splitRuns sep cs acc, w.data ≠ [] ∧ ∀ c ∈ w.data, sep c = false
  | [], acc, hacc => by
    intro w hw
    unfold splitRuns at hw
    by_cases h : acc = []
    · simp [h] at hw
    · simp [h] at hw
      subst hw
      refine ⟨by simpa [String.mk] using h, ?_⟩
      intro c hc
      exact hacc c (List.mem_reverse.mp hc)
  | c :: cs, acc, hacc => by
    intro w hw
    unfold splitRuns at hw
    by_cases hsep : sep c
    · simp [hsep] at hw
      by_cases h : acc = []
      · simp [h] at hw
        exact splitRuns_words_ok sep cs [] (by simp) w hw
      · simp [h] at hw
        rcases hw with hw | hw
        · subst hw
          refine ⟨by simpa [String.mk] using h, ?_⟩
          intro d hd
          exact hacc d (List.mem_reverse.mp hd)
        · exact splitRuns_words_ok sep cs [] (by simp) w hw
    · simp [hsep] at hw
      refine splitRuns_words_ok sep cs (c :: acc) ?_ w hw
      intro d hd
      rcases List.mem_cons.mp hd with h | h
      · subst h
        simpa using hsep
      · exact hacc d h

theorem mem_pySplit_ok {s : String} {w : String} (hw : w ∈ pySplit s) :
    w ≠ "" ∧ ∀ c ∈ w.data, pyIsSpace c = false := by
  have h := splitRuns_words_ok pyIsSpace s.data [] (by simp) w hw
  refine ⟨?_, h.2⟩
  intro he
  subst he
  exact h.1 rfl

theorem mem_pySplit_subset {s : String} {w : String} (hw : w ∈ pySplit s) :
    ∀ c ∈ w.data, c ∈ s.data := by
  intro c hc
  rcases mem_splitRuns pyIsSpace s.data [] w hw c hc with h | h
  · exact h
  · exact absurd h (List.not_mem_nil c)

/-- The stripped-and-refiltered word list computed by both preparers is just
`pySplit` of the stripped query. -/
theorem words_eq_pySplit (q : String) :
    ((pySplit q).map pyStrip).filter (fun w => w ≠ "") = pySplit q := by
  have hmap : (pySplit q).map pyStrip = pySplit q := by
    have h : (pySplit q).map pyStrip = (pySplit q).map id :=
      List.map_congr_left (fun w hw => pyStrip_eq_self w ((mem_pySplit_ok hw).2))
    rw [h, List.map_id]
  rw [hmap]
  refine List.filter_eq_self.mpr ?_
  intro w hw
  exact decide_eq_true ((mem_pySplit_ok hw).1)

/-! ## Specification-side renditions of the two normalizers (for refinement) -/

/-- The embedded-engine normalizer as the specification words it: trim the
query, split it on whitespace, double every embedded double quote, wrap each
term in double quotes, join the terms with single spaces; no terms means no
constraint (`none`). -/
def normalizeSqliteSpec (s : String) : Option String :=
  let terms := pySplit (pyStrip s)
  if terms = [] then none
  else
    some (pyJoin " "
      (terms.map (fun w => String.mk ('"' :: (escapeQuotes w.data ++ ['"'])))))

/-- The relational-engine normalizer as the specification words it: trim and
split as above, strip every non-alphanumeric character from each term, discard
terms that become empty, join survivors with the AND operator; `none` when no
term survives. -/
def normalizePostgresSpec (s : String) : Option String :=
  let terms :=
    ((pySplit (pyStrip s)).map (fun w => String.mk (w.data.filter Char.isAlphanum))).filter
      (fun w => w ≠ "")
  if terms = [] then none
  else some (pyJoin " & " terms)

theorem pySplit_empty : pySplit "" = [] := rfl

theorem prepare_sqlite_eq_spec (s : String) :
    SearchService.prepare_query_sqlite s = normalizeSqliteSpec s := by
  unfold SearchService.prepare_query_sqlite normalizeSqliteSpec
  by_cases h : pyStrip s = ""
  · simp [h, pySplit_empty]
  · simp only [h, if_false, words_eq_pySplit]

theorem prepare_postgres_eq_spec (s : String) :
    SearchService.prepare_query_postgres s = normalizePostgresSpec s := by
  unfold SearchService.prepare_query_postgres normalizePostgresSpec
  by_cases h : pyStrip s = ""
  · simp [h, pySplit_empty]
  · simp only [h, if_false, words_eq_pySplit]
    by_cases hw : pySplit (pyStrip s) = []
    · simp [hw]
    · simp [hw]

/-- Claim C3: both preparers compute exactly the pipeline the specification
describes — the embedded-engine preparer trims, splits on whitespace, doubles
embedded double quotes, wraps every term in double quotes and joins with
single spaces; the relational-engine preparer strips non-alphanumeric
characters from each term, discards emptied terms, joins survivors with the
tsquery AND operator and returns none when no term survives. -/
theorem claim_C3_normalizers_match_spec (s : String) :
    SearchService.prepare_query_sqlite s = normalizeSqliteSpec s ∧
    SearchService.prepare_query_postgres s = normalizePostgresSpec s :=
  ⟨prepare_sqlite_eq_spec s, prepare_postgres_eq_spec s⟩

/-! ## Claim C1: punctuation-only and whitespace-only queries -/

/-- Claim C1, counterexample: the input consisting only of the punctuation
characters three exclamation marks is normalized by the embedded-engine
preparer to a quoted term, not to none — so it is false that both preparers
return none for every punctuation-and-or-whitespace input. -/
theorem claim_C1_counterexample :
    ("!!!".data.all (fun c => !c.isAlphanum)) = true ∧
    SearchService.prepare_query_sqlite "!!!" = some "\"!!!\"" := by
  exact ⟨by decide, by decide⟩

/-- Claim C1, amended: for every input all of whose characters are
non-alphanumeric (punctuation and/or whitespace), the relational-engine
preparer returns none; the embedded-engine preparer returns none when the
input is whitespace-only (punctuation-only inputs instead yield quoted
punctuation terms, see the counterexample). -/
theorem claim_C1_amended (s : String) (h : ∀ c ∈ s.data, c.isAlphanum = false) :
    SearchService.prepare_query_postgres s = none ∧
    ((∀ c ∈ s.data, pyIsSpace c = true) → SearchService.prepare_query_sqlite s = none) := by
  constructor
  · unfold SearchService.prepare_query_postgres
    by_cases hq : pyStrip s = ""
    · simp [hq]
    · simp only [hq, if_false, words_eq_pySplit]
      by_cases hw : pySplit (pyStrip s) = []
      · simp [hw]
      · simp only [hw, if_false]
        have hempty :
            ((pySplit (pyStrip s)).map
                (fun word => String.mk (word.data.filter Char.isAlphanum))).filter
              (fun w => w ≠ "") = [] := by
          refine List.filter_eq_nil_iff.mpr ?_
          intro w hw'
          rcases List.mem_map.mp hw' with ⟨word, hword, hmk⟩
          have hfil : word.data.filter Char.isAlphanum = [] := by
            refine List.filter_eq_nil_iff.mpr ?_
            intro c hc
            have hcs : c ∈ s.data :=
              mem_pyStrip_data (mem_pySplit_subset hword c hc)
            simp [h c hcs]
          rw [← hmk, hfil]
          simp
        rw [hempty]
        simp
  · intro hsp
    unfold SearchService.prepare_query_sqlite
    simp [pyStrip_eq_empty s hsp]

/-- Claim C1, witness for the amended statement at concrete inputs. -/
theorem claim_C1_amended_witness :
    SearchService.prepare_query_postgres "!? |" = none ∧
    SearchService.prepare_query_sqlite " \t " = none := by
  constructor
  · exact (claim_C1_amended "!? |" (by decide)).1
  · exact (claim_C1_amended " \t " (by decide)).2 (by decide)

/-! ## Sample data for concrete witnesses -/

/-- Sample `items` rows (the scenario of the specification: three entities
about python and rust). -/
def sampleItems : List ItemRow :=
  [{ id := 1, title := "python tutorial", description := "learn python",
     content := "python basics", type := "agent", category_id := some 1,
     tag_ids := [1], search_vector := "" },
   { id := 2, title := "rust guide", description := "learn rust",
     content := "rust basics", type := "prompt", category_id := some 2,
     tag_ids := [2], search_vector := "" },
   { id := 3, title := "python and rust", description := "both",
     content := "mixed", type := "agent", category_id := some 1,
     tag_ids := [1, 2], search_vector := "" }]

/-- Sample `items_fts` rows derived from `sampleItems`. -/
def sampleFts : List FtsRow :=
  [{ rowid := 1, title := "python tutorial", description := "learn python",
     content := "python basics" },
   { rowid := 2, title := "rust guide", description := "learn rust",
     content := "rust basics" },
   { rowid := 3, title := "python and rust", description := "both",
     content := "mixed" }]

/-- A sample SQLite-backend database using the FTS5 model semantics and the
rowid as (an arbitrary deterministic) rank. -/
def sampleDb : Db :=
  { backend := .sqlite
    items_fts := sampleFts
    items := sampleItems
    ftsMatch := fts5Match
    bm25 := fun _ r => r.rowid
    tsMatch := fun _ _ => false
    tsRank := fun _ _ => 0
    to_tsvector := fun s => s }

/-- A sample PostgreSQL-backend database (vector matching: substring test on
the concatenated text, rank constant). -/
def samplePgDb : Db :=
  { backend := .postgres
    items_fts := []
    items := sampleItems
    ftsMatch := fun _ _ => false
    bm25 := fun _ _ => 0
    tsMatch := fun cq it => (ftsWords (it.title ++ " " ++ it.description ++ " " ++ it.content)).contains cq
    tsRank := fun _ it => it.id
    to_tsvector := fun s => s }

/-! ## Claim C4: early returns of SearchService.search -/

theorem pyStrip_ne_of_prepare_sqlite {q cq : String}
    (h : SearchService.prepare_query_sqlite q = some cq) : pyStrip q ≠ "" := by
  intro he
  unfold SearchService.prepare_query_sqlite at h
  simp [he] at h

theorem pyStrip_ne_of_prepare_postgres {q cq : String}
    (h : SearchService.prepare_query_postgres q = some cq) : pyStrip q ≠ "" := by
  intro he
  unfold SearchService.prepare_query_postgres at h
  simp [he] at h

theorem pyStrip_empty_string : pyStrip "" = "" := rfl

/-- Claim C4: `search` returns `([], 0)` issuing no SQL statement whenever the
raw query is empty or whitespace-only or the preparer returns none; and when
the prepared query is non-none but the COUNT statement reports zero matches,
it returns `([], 0)` having issued only that single statement (the ranked
fetch never runs). -/
theorem claim_C4_early_returns (db : Db) (q : String) (limit offset : Nat) :
    (pyStrip q = "" → SearchService.search db q limit offset = (([], 0), 0)) ∧
    (db.backend = .sqlite → SearchService.prepare_query_sqlite q = none →
      SearchService.search db q limit offset = (([], 0), 0)) ∧
    (db.backend = .postgres → SearchService.prepare_query_postgres q = none →
      SearchService.search db q limit offset = (([], 0), 0)) ∧
    (∀ cq, db.backend = .sqlite → SearchService.prepare_query_sqlite q = some cq →
      (db.items_fts.filter (db.ftsMatch cq)).length = 0 →
      SearchService.search db q limit offset = (([], 0), 1)) ∧
    (∀ cq, db.backend = .postgres → SearchService.prepare_query_postgres q = some cq →
      (db.items.filter (db.tsMatch cq)).length = 0 →
      SearchService.search db q limit offset = (([], 0), 1)) := by
  refine ⟨?_, ?_, ?_, ?_, ?_⟩
  · intro h
    unfold SearchService.search
    simp [h]
  · intro hb h
    unfold SearchService.search
    by_cases hq : pyStrip q = ""
    · simp [hq]
    · simp only [hq]
      have hq' : ¬q = "" := fun he => hq (by rw [he]; rfl)
      simp only [hq', decide_False, Bool.false_or, decide_eq_true_eq, if_false, hb]
      unfold SearchService.search_sqlite
      rw [h]
      simp
  · intro hb h
    unfold SearchService.search
    by_cases hq : pyStrip q = ""
    · simp [hq]
    · have hq' : ¬q = "" := fun he => hq (by rw [he]; rfl)
      simp only [hq, hq', decide_False, Bool.false_or, decide_eq_true_eq, if_false, hb]
      unfold SearchService.search_postgres
      rw [h]
      simp
  · intro cq hb h hcount
    have hq : pyStrip q ≠ "" := pyStrip_ne_of_prepare_sqlite h
    have hq' : ¬q = "" := fun he => hq (by rw [he]; rfl)
    unfold SearchService.search
    simp only [hq, hq', decide_False, Bool.false_or, decide_eq_true_eq, if_false, hb]
    unfold SearchService.search_sqlite
    rw [h]
    simp [hcount]
  · intro cq hb h hcount
    have hq : pyStrip q ≠ "" := pyStrip_ne_of_prepare_postgres h
    have hq' : ¬q = "" := fun he => hq (by rw [he]; rfl)
    unfold SearchService.search
    simp only [hq, hq', decide_False, Bool.false_or, decide_eq_true_eq, if_false, hb]
    unfold SearchService.search_postgres
    rw [h]
    simp [hcount]

/-- Claim C4, witness: concrete early returns on the sample databases — a
whitespace-only query, a punctuation query the PostgreSQL preparer rejects,
and zero-match queries on both backends. -/
theorem claim_C4_witness :
    SearchService.search sampleDb "  \t " 20 0 = (([], 0), 0) ∧
    SearchService.search samplePgDb "!!!" 5 0 = (([], 0), 0) ∧
    SearchService.search sampleDb "zzznomatch" 20 0 = (([], 0), 1) ∧
    SearchService.search samplePgDb "zzznomatch" 20 0 = (([], 0), 1) := by
  refine ⟨?_, ?_, ?_, ?_⟩
  · exact (claim_C4_early_returns sampleDb "  \t " 20 0).1 (by decide)
  · exact (claim_C4_early_returns samplePgDb "!!!" 5 0).2.2.1 (by decide) (by decide)
  · exact (claim_C4_early_returns sampleDb "zzznomatch" 20 0).2.2.2.1 "\"zzznomatch\""
      (by decide) (by decide) (by decide)
  · exact (claim_C4_early_returns samplePgDb "zzznomatch" 20 0).2.2.2.2 "zzznomatch"
      (by decide) (by decide) (by decide)

/-! ## Claim C5: relevance-ordered results with a global total -/

theorem ranked_rows_sqlite_pairwise (db : Db) (cq : String) :
    (SearchService.ranked_rows_sqlite db cq).Pairwise
      (fun a b => db.bm25 cq a ≤ db.bm25 cq b) := by
  unfold SearchService.ranked_rows_sqlite
  refine List.Pairwise.imp ?_
    (List.sorted_mergeSort ?_ ?_ (db.items_fts.filter (db.ftsMatch cq)))
  · intro a b hab
    simpa using hab
  · intro a b c hab hbc
    simp only [decide_eq_true_eq] at hab hbc ⊢
    exact le_trans hab hbc
  · intro a b
    simpa using le_total (db.bm25 cq a) (db.bm25 cq b)

theorem ranked_rows_postgres_pairwise (db : Db) (cq : String) :
    (SearchService.ranked_rows_postgres db cq).Pairwise
      (fun a b => db.tsRank cq b ≤ db.tsRank cq a) := by
  unfold SearchService.ranked_rows_postgres
  refine List.Pairwise.imp ?_
    (List.sorted_mergeSort ?_ ?_ (db.items.filter (db.tsMatch cq)))
  · intro a b hab
    simpa using hab
  · intro a b c hab hbc
    simp only [decide_eq_true_eq] at hab hbc ⊢
    exact le_trans hbc hab
  · intro a b
    simpa using le_total (db.tsRank cq b) (db.tsRank cq a)

/-- Membership in the SQLite ranked row sequence is membership in the match
set. -/
theorem mem_ranked_rows_sqlite {db : Db} {cq : String} {r : FtsRow}
    (hr : r ∈ SearchService.ranked_rows_sqlite db cq) :
    r ∈ db.items_fts ∧ db.ftsMatch cq r = true := by
  simpa [SearchService.ranked_rows_sqlite] using hr

/-- Membership in the PostgreSQL ranked row sequence is membership in the
match set. -/
theorem mem_ranked_rows_postgres {db : Db} {cq : String} {r : ItemRow}
    (hr : r ∈ SearchService.ranked_rows_postgres db cq) :
    r ∈ db.items ∧ db.tsMatch cq r = true := by
  simpa [SearchService.ranked_rows_postgres] using hr

/-- Reduction of `search` on the SQLite backend when the prepared query is
non-none and at least one row matches. -/
theorem search_sqlite_pos (db : Db) (q cq : String) (limit offset : Nat)
    (hb : db.backend = .sqlite)
    (hp : SearchService.prepare_query_sqlite q = some cq)
    (hpos : 0 < (db.items_fts.filter (db.ftsMatch cq)).length) :
    SearchService.search db q limit offset =
      ((((SearchService.ranked_ids_sqlite db cq).drop offset).take limit,
        (db.items_fts.filter (db.ftsMatch cq)).length), 2) := by
  have hq : pyStrip q ≠ "" := pyStrip_ne_of_prepare_sqlite hp
  have hq' : ¬q = "" := fun he => hq (by rw [he]; rfl)
  have h0 : ¬(db.items_fts.filter (db.ftsMatch cq)).length = 0 :=
    Nat.pos_iff_ne_zero.mp hpos
  unfold SearchService.search
  simp only [hq, hq', decide_False, Bool.false_or, decide_eq_true_eq, if_false, hb]
  unfold SearchService.search_sqlite
  rw [hp]
  simp [h0]

/-- Reduction of `search` on the PostgreSQL backend when the prepared query is
non-none and at least one row matches. -/
theorem search_postgres_pos (db : Db) (q cq : String) (limit offset : Nat)
    (hb : db.backend = .postgres)
    (hp : SearchService.prepare_query_postgres q = some cq)
    (hpos : 0 < (db.items.filter (db.tsMatch cq)).length) :
    SearchService.search db q limit offset =
      ((((SearchService.ranked_ids_postgres db cq).drop offset).take limit,
        (db.items.filter (db.tsMatch cq)).length), 2) := by
  have hq : pyStrip q ≠ "" := pyStrip_ne_of_prepare_postgres hp
  have hq' : ¬q = "" := fun he => hq (by rw [he]; rfl)
  have h0 : ¬(db.items.filter (db.tsMatch cq)).length = 0 :=
    Nat.pos_iff_ne_zero.mp hpos
  unfold SearchService.search
  simp only [hq, hq', decide_False, Bool.false_or, decide_eq_true_eq, if_false, hb]
  unfold SearchService.search_postgres
  rw [hp]
  simp [h0]

/-- The page window is a sublist of the unpaginated sequence. -/
theorem drop_take_sublist {α : Type} (l : List α) (offset limit : Nat) :
    List.Sublist ((l.drop offset).take limit) l :=
  ((l.drop offset).take_sublist limit).trans (l.drop_sublist offset)

/-- Claim C5: for every prepared query with at least one match, `search`
returns the total number of matching rows in the whole index (not the page
size), every returned id is the key of some matching row, and — when keys are
unique, as table keys are — consecutive returned ids are ordered most relevant
first: `bm25` ascending on SQLite, `ts_rank` descending on PostgreSQL. -/
theorem claim_C5_ranked_results (db : Db) (q cq : String) (limit offset : Nat) :
    (db.backend = .sqlite → SearchService.prepare_query_sqlite q = some cq →
      0 < (db.items_fts.filter (db.ftsMatch cq)).length →
      (SearchService.search db q limit offset).1.2
          = (db.items_fts.filter (db.ftsMatch cq)).length ∧
      (∀ i ∈ (SearchService.search db q limit offset).1.1,
        ∃ r, r ∈ db.items_fts ∧ db.ftsMatch cq r = true ∧ r.rowid = i) ∧
      ((db.items_fts.map FtsRow.rowid).Nodup →
        (SearchService.search db q limit offset).1.1.Pairwise
          (fun a b => ∀ ra rb, ra ∈ db.items_fts → rb ∈ db.items_fts →
            db.ftsMatch cq ra = true → db.ftsMatch cq rb = true →
            ra.rowid = a → rb.rowid = b → db.bm25 cq ra ≤ db.bm25 cq rb))) ∧
    (db.backend = .postgres → SearchService.prepare_query_postgres q = some cq →
      0 < (db.items.filter (db.tsMatch cq)).length →
      (SearchService.search db q limit offset).1.2
          = (db.items.filter (db.tsMatch cq)).length ∧
      (∀ i ∈ (SearchService.search db q limit offset).1.1,
        ∃ r, r ∈ db.items ∧ db.tsMatch cq r = true ∧ r.id = i) ∧
      ((db.items.map ItemRow.id).Nodup →
        (SearchService.search db q limit offset).1.1.Pairwise
          (fun a b => ∀ ra rb, ra ∈ db.items → rb ∈ db.items →
            db.tsMatch cq ra = true → db.tsMatch cq rb = true →
            ra.id = a → rb.id = b → db.tsRank cq rb ≤ db.tsRank cq ra))) := by
  constructor
  · intro hb hp hpos
    rw [search_sqlite_pos db q cq limit offset hb hp hpos]
    refine ⟨rfl, ?_, ?_⟩
    · intro i hi
      have hi' : i ∈ SearchService.ranked_ids_sqlite db cq :=
        (drop_take_sublist _ offset limit).mem hi
      rcases List.mem_map.mp hi' with ⟨r, hr, hri⟩
      have hr' := mem_ranked_rows_sqlite hr
      exact ⟨r, hr'.1, hr'.2, hri⟩
    · intro hnodup
      have hpair := ranked_rows_sqlite_pairwise db cq
      have hpair2 : (SearchService.ranked_rows_sqlite db cq).Pairwise
          (fun x y => ∀ ra rb, ra ∈ db.items_fts → rb ∈ db.items_fts →
            db.ftsMatch cq ra = true → db.ftsMatch cq rb = true →
            ra.rowid = x.rowid → rb.rowid = y.rowid →
            db.bm25 cq ra ≤ db.bm25 cq rb) := by
        refine hpair.imp_of_mem ?_
        intro x y hx hy hxy ra rb hra hrb hmra hmrb hrax hrby
        have hxm : x ∈ db.items_fts := (mem_ranked_rows_sqlite hx).1
        have hym : y ∈ db.items_fts := (mem_ranked_rows_sqlite hy).1
        have hrax' : ra = x := List.inj_on_of_nodup_map hnodup hra hxm hrax
        have hrby' : rb = y := List.inj_on_of_nodup_map hnodup hrb hym hrby
        rw [hrax', hrby']
        exact hxy
      have hmapped : (SearchService.ranked_ids_sqlite db cq).Pairwise
          (fun a b => ∀ ra rb, ra ∈ db.items_fts → rb ∈ db.items_fts →
            db.ftsMatch cq ra = true → db.ftsMatch cq rb = true →
            ra.rowid = a → rb.rowid = b → db.bm25 cq ra ≤ db.bm25 cq rb) := by
        unfold SearchService.ranked_ids_sqlite
        exact List.pairwise_map.mpr hpair2
      exact hmapped.sublist (drop_take_sublist _ offset limit)
  · intro hb hp hpos
    rw [search_postgres_pos db q cq limit offset hb hp hpos]
    refine ⟨rfl, ?_, ?_⟩
    · intro i hi
      have hi' : i ∈ SearchService.ranked_ids_postgres db cq :=
        (drop_take_sublist _ offset limit).mem hi
      rcases List.mem_map.mp hi' with ⟨r, hr, hri⟩
      have hr' := mem_ranked_rows_postgres hr
      exact ⟨r, hr'.1, hr'.2, hri⟩
    · intro hnodup
      have hpair := ranked_rows_postgres_pairwise db cq
      have hpair2 : (SearchService.ranked_rows_postgres db cq).Pairwise
          (fun x y => ∀ ra rb, ra ∈ db.items → rb ∈ db.items →
            db.tsMatch cq ra = true → db.tsMatch cq rb = true →
            ra.id = x.id → rb.id = y.id →
            db.tsRank cq rb ≤ db.tsRank cq ra) := by
        refine hpair.imp_of_mem ?_
        intro x y hx hy hxy ra rb hra hrb hmra hmrb hrax hrby
        have hxm : x ∈ db.items := (mem_ranked_rows_postgres hx).1
        have hym : y ∈ db.items := (mem_ranked_rows_postgres hy).1
        have hrax' : ra = x := List.inj_on_of_nodup_map hnodup hra hxm hrax
        have hrby' : rb = y := List.inj_on_of_nodup_map hnodup hrb hym hrby
        rw [hrax', hrby']
        exact hxy
      have hmapped : (SearchService.ranked_ids_postgres db cq).Pairwise
          (fun a b => ∀ ra rb, ra ∈ db.items → rb ∈ db.items →
            db.tsMatch cq ra = true → db.tsMatch cq rb = true →
            ra.id = a → rb.id = b → db.tsRank cq rb ≤ db.tsRank cq ra) := by
        unfold SearchService.ranked_ids_postgres
        exact List.pairwise_map.mpr hpair2
      exact hmapped.sublist (drop_take_sublist _ offset limit)

/-- Claim C5, witness: on the sample databases the query python matches
entities 1 and 3 and the reported total is 2 on both backends. -/
theorem claim_C5_witness :
    (SearchService.search sampleDb "python" 20 0).1.2 = 2 ∧
    (SearchService.search samplePgDb "python" 20 0).1.2 = 2 := by
  constructor
  · have h := ((claim_C5_ranked_results sampleDb "python" "\"python\"" 20 0).1
      rfl (by decide) (by decide)).1
    rw [h]
    decide
  · have h := ((claim_C5_ranked_results samplePgDb "python" "python" 20 0).2
      rfl (by decide) (by decide)).1
    rw [h]
    decide

/-! ## Claim C7: pagination covers the unpaginated ranked sequence -/

/-- Reduction of `search` on the SQLite backend when the prepared query is
non-none and no row matches. -/
theorem search_sqlite_zero (db : Db) (q cq : String) (limit offset : Nat)
    (hb : db.backend = .sqlite)
    (hp : SearchService.prepare_query_sqlite q = some cq)
    (h0 : (db.items_fts.filter (db.ftsMatch cq)).length = 0) :
    SearchService.search db q limit offset = (([], 0), 1) := by
  have hq : pyStrip q ≠ "" := pyStrip_ne_of_prepare_sqlite hp
  have hq' : ¬q = "" := fun he => hq (by rw [he]; rfl)
  unfold SearchService.search
  simp only [hq, hq', decide_False, Bool.false_or, decide_eq_true_eq, if_false, hb]
  unfold SearchService.search_sqlite
  rw [hp]
  simp [h0]

theorem ranked_ids_sqlite_length (db : Db) (cq : String) :
    (SearchService.ranked_ids_sqlite db cq).length
      = (db.items_fts.filter (db.ftsMatch cq)).length := by
  unfold SearchService.ranked_ids_sqlite SearchService.ranked_rows_sqlite
  simp

/-- Splitting a list into `n` successive windows of width `limit` and
concatenating them reproduces the list, as soon as `n * limit` covers its
length. -/
theorem pages_flatten {α : Type} (limit : Nat) :
    ∀ (n : Nat) (l : List α), l.length ≤ n * limit →
      ((List.range n).map (fun k => (l.drop (k * limit)).take limit)).flatten = l := by
  intro n
  induction n with
  | zero =>
    intro l hlen
    have h0 : l.length = 0 := Nat.le_zero.mp (by simpa using hlen)
    simp [List.eq_nil_of_length_eq_zero h0]
  | succ m ih =>
    intro l hlen
    rw [List.range_succ_eq_map, List.map_cons, List.flatten_cons, List.map_map]
    have h1 : ((fun k => (l.drop (k * limit)).take limit) ∘ Nat.succ)
        = fun k => (((l.drop limit).drop (k * limit)).take limit) := by
      funext k
      simp only [Function.comp_apply]
      rw [List.drop_drop, Nat.succ_mul, Nat.add_comm limit (k * limit)]
    rw [h1]
    have h2 : (l.drop limit).length ≤ m * limit := by
      rw [List.length_drop]
      rw [Nat.succ_mul] at hlen
      omega
    rw [ih (l.drop limit) h2]
    simp [List.take_append_drop]

/-- Claim C7: for a fixed index and a prepared SQLite query, concatenating the
id lists of the successive page windows `offset = 0, limit, 2*limit, ...`
reproduces exactly the unpaginated ranked id sequence, in the same order, as
soon as the page count covers the number of matches. -/
theorem claim_C7_pagination (db : Db) (q cq : String) (limit : Nat)
    (hb : db.backend = .sqlite)
    (hp : SearchService.prepare_query_sqlite q = some cq) :
    ∀ n, (db.items_fts.filter (db.ftsMatch cq)).length ≤ n * limit →
      ((List.range n).map
          (fun k => (SearchService.search db q limit (k * limit)).1.1)).flatten
        = SearchService.ranked_ids_sqlite db cq := by
  intro n hn
  by_cases h0 : (db.items_fts.filter (db.ftsMatch cq)).length = 0
  · have hmap : ∀ k ∈ List.range n,
        (SearchService.search db q limit (k * limit)).1.1 = ([] : List Int) := by
      intro k _
      rw [search_sqlite_zero db q cq limit (k * limit) hb hp h0]
    have hfil : db.items_fts.filter (db.ftsMatch cq) = [] :=
      List.length_eq_zero.mp h0
    have hranked : SearchService.ranked_ids_sqlite db cq = [] := by
      unfold SearchService.ranked_ids_sqlite SearchService.ranked_rows_sqlite
      rw [hfil]
      simp
    rw [hranked, List.map_congr_left hmap]
    simp
  · have hpos : 0 < (db.items_fts.filter (db.ftsMatch cq)).length :=
      Nat.pos_of_ne_zero h0
    have hmap : ∀ k ∈ List.range n,
        (SearchService.search db q limit (k * limit)).1.1
          = ((SearchService.ranked_ids_sqlite db cq).drop (k * limit)).take limit := by
      intro k _
      rw [search_sqlite_pos db q cq limit (k * limit) hb hp hpos]
    rw [List.map_congr_left hmap]
    refine pages_flatten limit n _ ?_
    rw [ranked_ids_sqlite_length]
    exact hn

/-- Claim C7, witness: with page size 1 the two pages of the query python on
the sample database concatenate to the unpaginated ranked sequence. -/
theorem claim_C7_witness :
    ((List.range 2).map
        (fun k => (SearchService.search sampleDb "python" 1 (k * 1)).1.1)).flatten
      = SearchService.ranked_ids_sqlite sampleDb "\"python\"" :=
  claim_C7_pagination sampleDb "python" "\"python\"" 1 rfl (by decide) 2 (by decide)

/-! ## Claim C8: rebuild_index is an idempotent full replace -/

/-- Claim C8: on a static items table rebuilding the index twice leaves
exactly the state one rebuild produces, and the result of a rebuild is
independent of the prior index state — an arbitrary items_fts table (SQLite)
or arbitrarily overwritten search_vector values (PostgreSQL) are fully
replaced — so rebuild may safely be re-invoked any number of times after a
partial or failed rebuild. -/
theorem claim_C8_rebuild_idempotent (db : Db) :
    SearchService.rebuild_index (SearchService.rebuild_index db)
        = SearchService.rebuild_index db ∧
    (db.backend = .sqlite → ∀ fts : List FtsRow,
      SearchService.rebuild_index { db with items_fts := fts }
        = SearchService.rebuild_index db) ∧
    (db.backend = .postgres → ∀ g : ItemRow → String,
      SearchService.rebuild_index
          { db with items := db.items.map (fun it => { it with search_vector := g it }) }
        = SearchService.rebuild_index db) := by
  obtain ⟨b, fts, items, fm, bm, tm, tr, tv⟩ := db
  refine ⟨?_, ?_, ?_⟩
  · cases b
    · simp [SearchService.rebuild_index]
    · simp only [SearchService.rebuild_index, List.map_map]
      congr 1
  · intro hb fts2
    cases b
    · simp [SearchService.rebuild_index]
    · exact absurd hb (by simp)
  · intro hb g
    cases b
    · exact absurd hb (by simp)
    · simp only [SearchService.rebuild_index, List.map_map]
      congr 1

/-- Claim C8, witness: rebuilding from an emptied SQLite index, or from
PostgreSQL search vectors overwritten with junk, equals rebuilding from the
sample databases directly. -/
theorem claim_C8_witness :
    SearchService.rebuild_index { sampleDb with items_fts := [] }
        = SearchService.rebuild_index sampleDb ∧
    SearchService.rebuild_index
        { samplePgDb with
          items := samplePgDb.items.map (fun it => { it with search_vector := "junk" }) }
      = SearchService.rebuild_index samplePgDb := by
  constructor
  · exact (claim_C8_rebuild_idempotent sampleDb).2.1 rfl []
  · exact (claim_C8_rebuild_idempotent samplePgDb).2.2 rfl (fun _ => "junk")

/-! ## Claim C9: round trip through the index -/

theorem isAlphanum_not_space {c : Char} (h : c.isAlphanum = true) :
    pyIsSpace c = false := by
  cases hpy : pyIsSpace c
  · rfl
  · exfalso
    unfold pyIsSpace at hpy
    simp only [Bool.or_eq_true, decide_eq_true_eq] at hpy
    rcases hpy with ((((h1 | h1) | h1) | h1) | h1) | h1 <;>
      (subst h1; exact absurd h (by decide))

theorem isAlphanum_ne_quote {c : Char} (h : c.isAlphanum = true) : c ≠ '"' := by
  intro he
  subst he
  exact absurd h (by decide)

theorem escapeQuotes_eq_self :
    ∀ {l : List Char}, (∀ c ∈ l, c ≠ '"') → escapeQuotes l = l
  | [], _ => rfl
  | c :: cs, h => by
    unfold escapeQuotes
    have hc : ¬(c = '"') := h c (List.mem_cons_self c cs)
    simp only [hc, if_false]
    rw [escapeQuotes_eq_self (fun d hd => h d (List.mem_cons_of_mem c hd))]

theorem splitRuns_no_sep {sep : Char → Bool} :
    ∀ (cs acc : List Char), (∀ c ∈ cs, sep c = false) →
      splitRuns sep cs acc =
        if acc = [] ∧ cs = [] then [] else [String.mk (acc.reverse ++ cs)]
  | [], acc, _ => by
    unfold splitRuns
    by_cases hacc : acc = []
    · simp [hacc]
    · simp [hacc]
  | c :: cs, acc, h => by
    unfold splitRuns
    have hc : sep c = false := h c (List.mem_cons_self c cs)
    rw [hc]
    simp only [Bool.false_eq_true, if_false]
    rw [splitRuns_no_sep cs (c :: acc) (fun d hd => h d (List.mem_cons_of_mem c hd))]
    have hfalse : ¬(c :: acc = [] ∧ cs = []) := by
      rintro ⟨hca, -⟩
      exact List.cons_ne_nil c acc hca
    have hfalse2 : ¬(acc = [] ∧ c :: cs = []) := by
      rintro ⟨-, hcc⟩
      exact List.cons_ne_nil c cs hcc
    rw [if_neg hfalse, if_neg hfalse2]
    rw [List.reverse_cons, List.append_assoc]
    rfl

theorem string_ne_empty_of_data {t : String} (h : t.data ≠ []) : t ≠ "" := by
  intro he
  subst he
  exact h rfl

theorem string_data_ne_empty {t : String} (h : t ≠ "") : t.data ≠ [] := by
  intro hd
  refine h ?_
  cases t
  simp at hd
  rw [hd]

theorem pySplit_no_space {t : String} (hne : t ≠ "")
    (h : ∀ c ∈ t.data, pyIsSpace c = false) : pySplit t = [t] := by
  unfold pySplit
  have hfalse : ¬(([] : List Char) = [] ∧ t.data = []) := by
    rintro ⟨-, hd⟩
    exact string_data_ne_empty hne hd
  rw [splitRuns_no_sep t.data [] h, if_neg hfalse]
  rfl

/-- The SQLite preparer on a single nonempty alphanumeric term: the term,
double-quoted. -/
theorem prepare_sqlite_single_term {t : String} (hne : t ≠ "")
    (h : ∀ c ∈ t.data, c.isAlphanum = true) :
    SearchService.prepare_query_sqlite t
      = some (String.mk ('"' :: (t.data ++ ['"']))) := by
  have hns : ∀ c ∈ t.data, pyIsSpace c = false :=
    fun c hc => isAlphanum_not_space (h c hc)
  have hstrip : pyStrip t = t := pyStrip_eq_self t hns
  have hq : escapeQuotes t.data = t.data :=
    escapeQuotes_eq_self (fun c hc => isAlphanum_ne_quote (h c hc))
  rw [prepare_sqlite_eq_spec]
  unfold normalizeSqliteSpec
  rw [hstrip, pySplit_no_space hne hns]
  simp [pyJoin, hq]

/-- The FTS5 model on the prepared form of a single alphanumeric term reduces
to token containment. -/
theorem fts5Match_single_term {t : String} (_hne : t ≠ "")
    (h : ∀ c ∈ t.data, c.isAlphanum = true) (r : FtsRow) :
    fts5Match (String.mk ('"' :: (t.data ++ ['"']))) r
      = (ftsRowTokens r).contains (lowerString t) := by
  unfold fts5Match
  have hnospace : ∀ c ∈ (String.mk ('"' :: (t.data ++ ['"']))).data,
      pyIsSpace c = false := by
    intro c hc
    simp only [String.mk, List.mem_cons, List.mem_append, List.not_mem_nil,
      or_false] at hc
    rcases hc with hc | hc | hc
    · subst hc; decide
    · exact isAlphanum_not_space (h c hc)
    · subst hc; decide
  have hne2 : String.mk ('"' :: (t.data ++ ['"'])) ≠ "" :=
    string_ne_empty_of_data (by simp)
  rw [pySplit_no_space hne2 hnospace]
  have hfilter : ('"' :: (t.data ++ ['"'])).filter (fun c => c != '"') = t.data := by
    rw [List.filter_cons]
    simp only [bne_self_eq_false, Bool.false_eq_true, if_false]
    rw [List.filter_append]
    have h1 : t.data.filter (fun c => c != '"') = t.data := by
      refine List.filter_eq_self.mpr ?_
      intro c hc
      simpa using isAlphanum_ne_quote (h c hc)
    have h2 : (['"'] : List Char).filter (fun c => c != '"') = [] := by decide
    rw [h1, h2, List.append_nil]
  simp only [List.map_cons, List.map_nil, List.all_cons, List.all_nil,
    Bool.and_true]
  rw [hfilter]

theorem index_item_sqlite (db : Db) (item_id : Int)
    (title description content : String) (hb : db.backend = .sqlite) :
    SearchService.index_item db item_id title description content
      = { db with
          items_fts := (db.items_fts.filter (fun r => r.rowid != item_id)) ++
            [{ rowid := item_id, title := title, description := description,
               content := content }] } := by
  unfold SearchService.index_item
  rw [hb]

/-- Claim C9: after `index_item` writes an entity's current text into the
SQLite index, an immediately following `search` for a nonempty alphanumeric
term that occurs among the new entry's tokens — and among no other indexed
row's tokens — returns the entity's identifier (the external FTS5 engine is
instantiated with its model semantics `fts5Match`). -/
theorem claim_C9_round_trip (db : Db) (item_id : Int)
    (title description content t : String)
    (hb : db.backend = .sqlite)
    (hfts : db.ftsMatch = fts5Match)
    (hne : t ≠ "") (halnum : ∀ c ∈ t.data, c.isAlphanum = true)
    (hocc : (ftsRowTokens (FtsRow.mk item_id title description content)).contains
      (lowerString t) = true)
    (honly : ∀ r ∈ db.items_fts, r.rowid ≠ item_id →
      (ftsRowTokens r).contains (lowerString t) = false) :
    item_id ∈ (SearchService.search
        (SearchService.index_item db item_id title description content)
        t 20 0).1.1 := by
  have hIdx := index_item_sqlite db item_id title description content hb
  have hp : SearchService.prepare_query_sqlite t
      = some (String.mk ('"' :: (t.data ++ ['"']))) :=
    prepare_sqlite_single_term hne halnum
  have hb' : (SearchService.index_item db item_id title description content).backend
      = .sqlite := by
    rw [hIdx]
    exact hb
  have hfts' : (SearchService.index_item db item_id title description content).ftsMatch
      = fts5Match := by
    rw [hIdx]
    exact hfts
  have hfilter :
      (SearchService.index_item db item_id title description content).items_fts.filter
        ((SearchService.index_item db item_id title description content).ftsMatch
          (String.mk ('"' :: (t.data ++ ['"']))))
      = [FtsRow.mk item_id title description content] := by
    rw [hfts', hIdx]
    show ((db.items_fts.filter (fun r => r.rowid != item_id)) ++
        [FtsRow.mk item_id title description content]).filter
          (fts5Match (String.mk ('"' :: (t.data ++ ['"'])))) = _
    rw [List.filter_append]
    have h1 : (db.items_fts.filter (fun r => r.rowid != item_id)).filter
        (fts5Match (String.mk ('"' :: (t.data ++ ['"'])))) = [] := by
      refine List.filter_eq_nil_iff.mpr ?_
      intro r hr
      have hmem : r ∈ db.items_fts := (List.mem_filter.mp hr).1
      have hrne : r.rowid ≠ item_id := by
        simpa using (List.mem_filter.mp hr).2
      rw [fts5Match_single_term hne halnum r]
      simpa using honly r hmem hrne
    have h2 : ([FtsRow.mk item_id title description content] : List FtsRow).filter
        (fts5Match (String.mk ('"' :: (t.data ++ ['"'])))) =
          [FtsRow.mk item_id title description content] := by
      simp only [List.filter_cons, List.filter_nil,
        fts5Match_single_term hne halnum, hocc, if_true]
    rw [h1, h2, List.nil_append]
  have hpos : 0 <
      ((SearchService.index_item db item_id title description content).items_fts.filter
        ((SearchService.index_item db item_id title description content).ftsMatch
          (String.mk ('"' :: (t.data ++ ['"']))))).length := by
    rw [hfilter]
    simp
  rw [search_sqlite_pos
    (SearchService.index_item db item_id title description content)
    t (String.mk ('"' :: (t.data ++ ['"']))) 20 0 hb' hp hpos]
  have hranked : SearchService.ranked_ids_sqlite
      (SearchService.index_item db item_id title description content)
      (String.mk ('"' :: (t.data ++ ['"']))) = [item_id] := by
    unfold SearchService.ranked_ids_sqlite SearchService.ranked_rows_sqlite
    rw [hfilter, List.mergeSort_singleton]
    rfl
  rw [hranked]
  simp

/-- Claim C9, witness: indexing a new entity 4 whose content contains the
unique term gadget and searching for it returns id 4. -/
theorem claim_C9_witness :
    (4 : Int) ∈ (SearchService.search
        (SearchService.index_item sampleDb 4 "fresh item" "" "a new gadget")
        "gadget" 20 0).1.1 := by
  refine claim_C9_round_trip sampleDb 4 "fresh item" "" "a new gadget" "gadget"
    rfl rfl (by decide) (by decide) (by decide) ?_
  intro r hr hrne
  fin_cases hr <;> decide

/-! ## Claims C2 and C6: the relevance branch of the route handler -/

/-- The id list returned by `search` never exceeds the requested LIMIT. -/
theorem search_ids_length_le (db : Db) (q : String) (limit offset : Nat) :
    (SearchService.search db q limit offset).1.1.length ≤ limit := by
  unfold SearchService.search SearchService.search_sqlite SearchService.search_postgres
  repeat' split
  all_goals simp [List.length_take]
  all_goals split
  all_goals simp [List.length_take]

/-- A filter of a duplicate-free table whose predicate forces membership of
the key in `ids` has at most `ids.length` rows. -/
theorem filter_mem_length_le (items : List ItemRow) (ids : List Int)
    (hnodup : (items.map ItemRow.id).Nodup) (p : ItemRow → Bool)
    (hp : ∀ it, p it = true → ids.contains it.id = true) :
    (items.filter p).length ≤ ids.length := by
  have hsub : (items.filter p).map ItemRow.id ⊆ ids := by
    intro i hi
    rcases List.mem_map.mp hi with ⟨it, hit, hid⟩
    have hc := hp it (List.mem_filter.mp hit).2
    rw [← hid]
    simpa using hc
  have hnd : ((items.filter p).map ItemRow.id).Nodup := by
    have hsubl : List.Sublist ((items.filter p).map ItemRow.id) (items.map ItemRow.id) :=
      (List.filter_sublist items).map ItemRow.id
    exact hnodup.sublist hsubl
  simpa using (hnd.subperm hsub).length_le

/-- Claim C2: because the relevance branch calls `SearchService.search`
without passing `limit` or `offset` (so the default LIMIT 20, OFFSET 0 apply),
at most 20 ranked ids enter the filtering step, the total reported after
filters never exceeds 20 for a duplicate-free items table, and every page
window starting at or beyond position 20 is empty — even if the index holds
more matching entities. -/
theorem claim_C2_default_limit (db : Db) (q : String)
    (type_filters : List String) (category_filters : List Int)
    (tagFilter : Option (List Int)) (page limit : Nat)
    (hnodup : (db.items.map ItemRow.id).Nodup) :
    (SearchService.search db q 20 0).1.1.length ≤ 20 ∧
    (router_search_relevance db q type_filters category_filters
        tagFilter page limit).2 ≤ 20 ∧
    (20 ≤ (page - 1) * limit →
      (router_search_relevance db q type_filters category_filters
          tagFilter page limit).1 = []) := by
  have hlen := search_ids_length_le db q 20 0
  have hfle : (db.items.filter
      (router_pass (SearchService.search db q 20 0).1.1 type_filters
        category_filters tagFilter)).length
      ≤ (SearchService.search db q 20 0).1.1.length := by
    refine filter_mem_length_le db.items _ hnodup _ ?_
    intro it hit
    unfold router_pass at hit
    simp only [Bool.and_eq_true] at hit
    exact hit.1.1.1
  refine ⟨hlen, ?_, ?_⟩
  · unfold router_search_relevance
    split
    · simp
    · dsimp only
      split
      · simp
      · dsimp only
        exact le_trans hfle hlen
  · intro hoff
    unfold router_search_relevance
    split
    · simp
    · dsimp only
      split
      · simp
      · dsimp only
        have hd : ((db.items.filter
            (router_pass (SearchService.search db q 20 0).1.1 type_filters
              category_filters tagFilter)).mergeSort (fun a b =>
                decide (rankPos (SearchService.search db q 20 0).1.1 a.id
                  ≤ rankPos (SearchService.search db q 20 0).1.1 b.id))).drop
            ((page - 1) * limit) = [] := by
          apply List.drop_eq_nil_of_le
          rw [List.length_mergeSort]
          exact le_trans (le_trans hfle hlen) hoff
        rw [hd]
        simp

/-- Claim C2, witness: on the sample database with a duplicate-free items
table, the python search reports a total of at most 20 and page 3 of size 20
(offset 40) is empty. -/
theorem claim_C2_witness :
    (router_search_relevance sampleDb "python" [] [] none 1 20).2 ≤ 20 ∧
    (router_search_relevance sampleDb "python" [] [] none 3 20).1 = [] := by
  constructor
  · exact (claim_C2_default_limit sampleDb "python" [] [] none 1 20 (by decide)).2.1
  · exact (claim_C2_default_limit sampleDb "python" [] [] none 3 20
      (by decide)).2.2 (by decide)

/-- Claim C6: after the secondary type/category/tag filters reduce the ranked
id set, the page returned by the relevance branch is still ordered by each
surviving id's position in the original ranked list (the CASE expression key),
not by an unrelated sort key. -/
theorem claim_C6_order_preserved (db : Db) (q : String)
    (type_filters : List String) (category_filters : List Int)
    (tagFilter : Option (List Int)) (page limit : Nat) (item_ids : List Int)
    (hids : (SearchService.search db q 20 0).1.1 = item_ids) :
    (router_search_relevance db q type_filters category_filters
        tagFilter page limit).1.Pairwise
      (fun a b => rankPos item_ids a ≤ rankPos item_ids b) := by
  subst hids
  unfold router_search_relevance
  split
  · simp
  · dsimp only
    split
    · simp
    · dsimp only
      have hsorted : ((db.items.filter
          (router_pass (SearchService.search db q 20 0).1.1 type_filters
            category_filters tagFilter)).mergeSort (fun a b =>
              decide (rankPos (SearchService.search db q 20 0).1.1 a.id
                ≤ rankPos (SearchService.search db q 20 0).1.1 b.id))).Pairwise
          (fun a b => rankPos (SearchService.search db q 20 0).1.1 a.id
            ≤ rankPos (SearchService.search db q 20 0).1.1 b.id) := by
        refine List.Pairwise.imp ?_ (List.sorted_mergeSort ?_ ?_ _)
        · intro a b hab
          simpa using hab
        · intro a b c hab hbc
          simp only [decide_eq_true_eq] at hab hbc ⊢
          exact le_trans hab hbc
        · intro a b
          simpa using Nat.le_total (rankPos (SearchService.search db q 20 0).1.1 a.id)
            (rankPos (SearchService.search db q 20 0).1.1 b.id)
      have hpage := hsorted.sublist
        (drop_take_sublist _ ((page - 1) * limit) limit)
      exact List.pairwise_map.mpr hpage

unseal List.merge List.mergeSort

/-- Claim C6, witness: filtering the python results to type agent, the
returned page 1-3 keeps the ranked order of the ids 1 and 3. -/
theorem claim_C6_witness :
    (router_search_relevance sampleDb "python" ["agent"] [] none 1 20).1.Pairwise
      (fun a b => rankPos [1, 3] a ≤ rankPos [1, 3] b) :=
  claim_C6_order_preserved sampleDb "python" ["agent"] [] none 1 20 [1, 3] (by decide)

/-! ## Claim C10: telemetry failures never reach the request path -/

/-- Claim C10: the background log writer catches every exception its session
raises — on a failed commit it rolls back, leaving the search_logs table
unchanged, and still returns normally, so nothing propagates to the caller —
and the search response is the same function of the request regardless of the
telemetry outcome. -/
theorem claim_C10_logging_isolated :
    (∀ (logs : List SearchLog) (query : String) (result_count : Nat)
        (source : String) (outcome : DbOutcome),
      (SearchLoggingService.log_search_sync logs query result_count
          source outcome).2 = Except.ok ()) ∧
    (∀ (logs : List SearchLog) (query : String) (result_count : Nat)
        (source msg : String),
      (SearchLoggingService.log_search_sync logs query result_count source
          (DbOutcome.raise msg)).1 = logs) ∧
    (∀ (db : Db) (logs : List SearchLog) (q : String)
        (type_filters : List String) (category_filters : List Int)
        (tagFilter : Option (List Int)) (page limit : Nat) (o1 o2 : DbOutcome),
      (search_with_logging db logs q type_filters category_filters
          tagFilter page limit o1).1
        = (search_with_logging db logs q type_filters category_filters
            tagFilter page limit o2).1) := by
  refine ⟨?_, ?_, ?_⟩
  · intro logs query result_count source outcome
    cases outcome <;> rfl
  · intro logs query result_count source msg
    rfl
  · intro db logs q type_filters category_filters tagFilter page limit o1 o2
    rfl
